import Mathlib

/-!
Verification of the deferred binary-patch engine (constructutils).

The development shallowly embeds the relevant parts of
`constructutils/deferred.py`, `constructutils/misc.py` and
`constructutils/checksum.py`:

* byte streams (`BytesIO`) become `StreamRec` records holding the byte list
  and the current position; the set of live streams of one build invocation
  is a list indexed by stream ids,
* the per-invocation deferred ledger (`_get_deferred_list`) becomes an
  explicit field of the build state,
* every `raise` site of the source becomes one constructor of `BuildErr`,
* exceptions propagate while mutable state persists, so fallible operations
  return `Except (BuildErr × BuildState) (α × BuildState)`.
-/

namespace ConstructUtils

/-! ### Byte stream model -/

/-- Writing bytes `b` at position `p` of a `BytesIO` buffer `d`: bytes in
`[p, p + b.length)` are overwritten, the buffer is zero-padded when `p` is
past the end, and the tail is kept. -/
def writeAt (d : List Nat) (p : Nat) (b : List Nat) : List Nat :=
  (d.take p ++ List.replicate (p - d.length) 0) ++ b ++ d.drop (p + b.length)

/-- Reading `n` bytes at position `p`; `none` when fewer than `n` bytes are
available (`stream_read` raises `StreamError` in that case). -/
def readAt (d : List Nat) (p : Nat) (n : Nat) : Option (List Nat) :=
  if p + n ≤ d.length then some ((d.drop p).take n) else none

/-- One `BytesIO` object: contents plus current position. -/
structure StreamRec where
  data : List Nat
  pos : Nat
deriving Repr, DecidableEq

/-! ### Values and subconstructs -/

/-- Values flowing through the embedded constructs: numbers (for example
`Byte` or `Tell` results) and byte strings (checksums, raw data). -/
inductive Val where
  | num (n : Nat)
  | bytes (b : List Nat)
deriving Repr, DecidableEq

/-- A subconstruct (codec) of the host library, at the interface the
deferred machinery uses: `sizeof` reports a fixed size or fails with a
`SizeofError` message, `build` encodes a value to bytes, `parse` decodes a
value from the front of a byte list. -/
structure Subcon where
  sizeof : Except String Nat
  build : Val → Option (List Nat)
  parse : List Nat → Option (Val × List Nat)

/-- The `Byte` codec: one byte, values `0 ≤ v < 256`. -/
def byteSub : Subcon where
  sizeof := .ok 1
  build
    | .num v => if v < 256 then some [v] else none
    | .bytes _ => none
  parse
    | b :: rest => some (.num b, rest)
    | [] => none

/-- The `GreedyBytes` codec: consumes everything, has no constant size. -/
def greedyBytesSub : Subcon where
  sizeof := .error "GreedyBytes has no fixed size"
  build
    | .bytes b => some b
    | .num _ => none
  parse := fun bs => some (.bytes bs, [])

/-! ### Errors

Each constructor corresponds to one `raise` site of the source; the spec
taxonomy maps onto them as follows:
`NonConstantSizeError` = `sizeNotConstant` (DeferredValue.__init__),
`PlaceholderConsistencyError` = `placeholderMismatch`
(DeferredMeta._check_placeholder), `AlreadyResolvedError` =
`assertAlreadyWritten` (the assert in DeferredMeta._build_value),
`InvalidPatchTargetError` = `notDeferredMeta` (WriteDeferredValue._build),
`IncompleteLedgerError` = `deferredNotWritten` (CheckDeferredValues._build),
`ChecksumMismatchError` = `checksumMismatch`
(VerifyOrWriteChecksums._parse), `SourceShapeError` =
`checksumListExpected`, `MissingCaptureError` = `checksumNoRawData`. -/
inductive BuildErr where
  | buildExpectedNone
  | subconBuildFailed
  | streamReadError
  | sizeNotConstant (cause : String)
  | placeholderMismatch (readData expected : List Nat)
  | notDeferredMeta
  | assertAlreadyWritten
  | deferredNotWritten (path : String)
  | checksumListExpected
  | checksumNoRawData
  | checksumMismatch (expected actual : List Nat)
deriving Repr, DecidableEq

/-! ### Deferred metadata and build state -/

/-- `DeferredMeta` of deferred.py: metadata of one placeholder slot. -/
structure DeferredMeta where
  subcon : Subcon
  path : String
  targetOffset : Nat
  placeholderData : List Nat
  newValue : Option Val := none
  newValueWritten : Bool := false

/-- Mutable state of one top-level build invocation: all live streams
(indexed by stream id; id 0 is the outermost stream) and the deferred
ledger stored on the root context by `_get_deferred_list`. -/
structure BuildState where
  streams : List StreamRec
  deferredList : List DeferredMeta

def BuildState.getStream (st : BuildState) (i : Nat) : StreamRec :=
  st.streams[i]?.getD ⟨[], 0⟩

def BuildState.setStream (st : BuildState) (i : Nat) (s : StreamRec) : BuildState :=
  { st with streams := st.streams.set i s }

/-- `stream_tell`. -/
def BuildState.tell (st : BuildState) (i : Nat) : Nat := (st.getStream i).pos

/-- `stream_seek` (absolute). -/
def BuildState.seek (st : BuildState) (i : Nat) (p : Nat) : BuildState :=
  st.setStream i { st.getStream i with pos := p }

/-- Writing bytes at the current position. -/
def BuildState.write (st : BuildState) (i : Nat) (b : List Nat) : BuildState :=
  let s := st.getStream i
  st.setStream i ⟨writeAt s.data s.pos b, s.pos + b.length⟩

/-- `stream_read`: reads and advances, `none` on a short read. -/
def BuildState.read (st : BuildState) (i : Nat) (n : Nat) :
    Option (List Nat × BuildState) :=
  let s := st.getStream i
  match readAt s.data s.pos n with
  | some b => some (b, st.setStream i { s with pos := s.pos + n })
  | none => none

/-- A fallible stateful operation: a Python exception propagates to the
caller while the mutated stream state persists. -/
abbrev BResult (α : Type) := Except (BuildErr × BuildState) (α × BuildState)

/-- Fresh state of one build invocation: a single empty outer stream and an
empty ledger. -/
def initState : BuildState := ⟨[⟨[], 0⟩], []⟩

/-! ### Offset resolver

`DeferredValue.__get_offset_in_outer_stream` walks the context tree upward
(`collect`), adding the position of every enclosing stream that differs
from the previous one, and stops at the first context without an `_io`
attribute.  A context chain is the innermost-first list of each context
level's optional stream id.  On top of that it adds, for every `Prefixed`
construct whose `_build` is on the interpreter call stack, the fixed size
of its not-yet-written length field; the stack is passed explicitly as the
list of those length-field sizes. -/

/-- The inner `collect` closure of `__get_offset_in_outer_stream`. -/
def collectOffsets (st : BuildState) : List (Option Nat) → Nat → Nat
  | [], _ => 0
  | none :: _, _ => 0
  | some curr :: rest, prev =>
    (if curr = prev then 0 else st.tell curr) + collectOffsets st rest curr

/-- `DeferredValue.__get_offset_in_outer_stream`. -/
def getOffsetInOuterStream (st : BuildState) (streamId : Nat)
    (ctxChain : List (Option Nat)) (pfxStack : List Nat) : Nat :=
  st.tell streamId + collectOffsets st ctxChain streamId + pfxStack.sum

/-! ### DeferredValue -/

/-- A constructed `DeferredValue` instance (its subcon and the placeholder
value written in place of the real one). -/
structure DeferredValue where
  subcon : Subcon
  placeholder : Val

/-- `DeferredValue.__init__`: requires the subcon to report a constant
size, wrapping the `SizeofError` in a `DeferredError` otherwise. -/
def DeferredValue.init (subcon : Subcon) (placeholder : Val) :
    Except BuildErr DeferredValue :=
  match subcon.sizeof with
  | .error e => .error (.sizeNotConstant e)
  | .ok _ => .ok ⟨subcon, placeholder⟩

/-- `DeferredValue._build`: expects `None`, computes the target offset in
the outermost stream, writes the placeholder, re-reads the written bytes,
and appends the new `DeferredMeta` to the ledger.  Returns the index of
the new ledger entry (the returned `DeferredMeta` object). -/
def DeferredValue.buildStep (dv : DeferredValue) (obj : Option Val)
    (streamId : Nat) (ctxChain : List (Option Nat)) (pfxStack : List Nat)
    (path : String) (st : BuildState) : BResult Nat :=
  match obj with
  | some _ => .error (.buildExpectedNone, st)
  | none =>
    let targetOffset := getOffsetInOuterStream st streamId ctxChain pfxStack
    let preOffset := st.tell streamId
    match dv.subcon.build dv.placeholder with
    | none => .error (.subconBuildFailed, st)
    | some bs =>
      let st1 := st.write streamId bs
      let postOffset := st1.tell streamId
      let st2 := st1.seek streamId preOffset
      match st2.read streamId (postOffset - preOffset) with
      | none => .error (.streamReadError, st2)
      | some (placeholderData, st3) =>
        let meta : DeferredMeta :=
          ⟨dv.subcon, path, targetOffset, placeholderData, none, false⟩
        .ok (st3.deferredList.length,
             { st3 with deferredList := st3.deferredList ++ [meta] })

/-! ### Patch transaction (DeferredMeta methods)

The `DeferredMeta` objects of the source are mutable and aliased between
the context and the ledger, so the embedding addresses them by their index
in the ledger. Note that `seek_temporary` of misc.py is a generator-based
context manager without a `finally`, so when the body raises, the position
is NOT restored; the embedding mirrors that. -/

/-- `DeferredMeta._check_placeholder`: temporarily seeks to the target
offset, reads back the placeholder-sized region and compares it with the
recorded placeholder bytes. -/
def checkPlaceholder (st : BuildState) (metaIdx : Nat) (streamId : Nat) :
    BResult Unit :=
  match st.deferredList[metaIdx]? with
  | none => .error (.notDeferredMeta, st)
  | some meta =>
    let fallback := st.tell streamId
    let st1 := st.seek streamId meta.targetOffset
    match st1.read streamId meta.placeholderData.length with
    | none => .error (.streamReadError, st1)
    | some (readData, st2) =>
      if readData = meta.placeholderData then
        .ok ((), st2.seek streamId fallback)
      else
        .error (.placeholderMismatch readData meta.placeholderData, st2)

/-- `DeferredMeta._build_value`: asserts the slot is still unresolved,
temporarily seeks to the target offset, builds the new value with the
stored subcon, and marks the slot resolved. -/
def buildValue (st : BuildState) (metaIdx : Nat) (obj : Val)
    (streamId : Nat) : BResult Unit :=
  match st.deferredList[metaIdx]? with
  | none => .error (.notDeferredMeta, st)
  | some meta =>
    if meta.newValueWritten then .error (.assertAlreadyWritten, st)
    else
      let fallback := st.tell streamId
      let st1 := st.seek streamId meta.targetOffset
      match meta.subcon.build obj with
      | none => .error (.subconBuildFailed, st1)
      | some bs =>
        let st2 := st1.write streamId bs
        let st3 := st2.seek streamId fallback
        let meta2 := { meta with newValue := some obj, newValueWritten := true }
        .ok ((), { st3 with deferredList := st3.deferredList.set metaIdx meta2 })

/-! ### WriteDeferredValue and CheckDeferredValues -/

/-- Result of evaluating the target-path expression of a
`WriteDeferredValue` against the context: either a reference to a
`DeferredMeta` (by ledger index) or some other value. -/
inductive CtxValue where
  | meta (idx : Nat)
  | plain (v : Val)

/-- `WriteDeferredValue._build`: the evaluated path must be a
`DeferredMeta`; the patch is applied to the root stream, first checking
the placeholder, then building the new value over it. -/
def WriteDeferredValue.buildStep (target : CtxValue) (newValue : Val)
    (rootStreamId : Nat) (st : BuildState) : BResult Unit :=
  match target with
  | .plain _ => .error (.notDeferredMeta, st)
  | .meta idx =>
    match checkPlaceholder st idx rootStreamId with
    | .error e => .error e
    | .ok (_, st1) => buildValue st1 idx newValue rootStreamId

/-- The loop of `CheckDeferredValues._build`: the path of the first ledger
entry whose value was never written, if any. -/
def findUnwritten : List DeferredMeta → Option String
  | [] => none
  | m :: rest => if m.newValueWritten then findUnwritten rest else some m.path

/-- `CheckDeferredValues._build`: raises for the first ledger entry that
was never resolved. -/
def CheckDeferredValues.buildStep (st : BuildState) : BResult Unit :=
  match findUnwritten st.deferredList with
  | some p => .error (.deferredNotWritten p, st)
  | none => .ok ((), st)

/-! ### Concrete schemas

The host library traversal (`Struct`, `Array`, `Prefixed`, `Tell`) is out
of scope of the core; each schema used by a claim is embedded as the
sequential composition of the field builds the traversal performs, with
the context chains and `Prefixed` call-stack frames the traversal would
produce. -/

/-- Building one subcon value at the current position of a stream
(`subcon._build(obj, stream, context, path)` for an atomic codec). -/
def subconWrite (sc : Subcon) (obj : Val) (streamId : Nat)
    (st : BuildState) : BResult Unit :=
  match sc.build obj with
  | none => .error (.subconBuildFailed, st)
  | some bs => .ok ((), st.write streamId bs)

/-- Building a sequence of `Byte` fields. -/
def buildByteList : List Nat → Nat → BuildState → BResult Unit
  | [], _, st => .ok ((), st)
  | v :: vs, i, st =>
    match subconWrite byteSub (.num v) i st with
    | .error e => .error e
    | .ok (_, st1) => buildByteList vs i st1

/-- Parsing a sequence of `n` `Byte` fields from the front of a byte
list. -/
def parseBytesSeq : Nat → List Nat → Option (List Nat × List Nat)
  | 0, bs => some ([], bs)
  | _ + 1, [] => none
  | n + 1, b :: bs =>
    match parseBytesSeq n bs with
    | some (xs, rest) => some (b :: xs, rest)
    | none => none

/-- Building the schema family
`Struct(lead bytes, slot / DeferredValue(Byte), trail bytes,
WriteDeferredValue(value of trail field j, slot))`: one deferred slot
patched from a later field.  Returns the final bytes of the outer
stream. -/
def buildSchemaGen (lead trail : List Nat) (j : Nat) :
    Except BuildErr (List Nat) :=
  match buildByteList lead 0 initState with
  | .error (e, _) => .error e
  | .ok (_, st1) =>
    match DeferredValue.buildStep ⟨byteSub, .num 0⟩ none 0 [some 0, none] []
        "(building) -> slot" st1 with
    | .error (e, _) => .error e
    | .ok (slotIdx, st2) =>
      match buildByteList trail 0 st2 with
      | .error (e, _) => .error e
      | .ok (_, st3) =>
        match WriteDeferredValue.buildStep (.meta slotIdx)
            (.num (trail.getD j 0)) 0 st3 with
        | .error (e, _) => .error e
        | .ok (_, st4) => .ok (st4.getStream 0).data

/-- Parsing the same schema family: `k1` lead bytes, the slot byte (a
plain `DeferredValue` delegates parsing to its subcon), `k2` trail bytes;
`WriteDeferredValue._parse` is a no-op. -/
def parseSchemaGen (k1 k2 : Nat) (bs : List Nat) :
    Option (List Nat × Nat × List Nat) :=
  match parseBytesSeq k1 bs with
  | none => none
  | some (lead, rest) =>
    match byteSub.parse rest with
    | some (.num b, rest2) =>
      match parseBytesSeq k2 rest2 with
      | some (trail, _) => some (lead, b, trail)
      | none => none
    | _ => none

/-- Building
`Struct(slot / DeferredValue(Byte, placeholder ph),
WriteDeferredValue(w1, slot), WriteDeferredValue(w2, slot))`:
two patch requests against the same slot. -/
def buildSchemaTwice (ph w1 w2 : Nat) : Except BuildErr (List Nat) :=
  match DeferredValue.buildStep ⟨byteSub, .num ph⟩ none 0 [some 0, none] []
      "(building) -> slot" initState with
  | .error (e, _) => .error e
  | .ok (slotIdx, st1) =>
    match WriteDeferredValue.buildStep (.meta slotIdx) (.num w1) 0 st1 with
    | .error (e, _) => .error e
    | .ok (_, st2) =>
      match WriteDeferredValue.buildStep (.meta slotIdx) (.num w2) 0 st2 with
      | .error (e, _) => .error e
      | .ok (_, st3) => .ok (st3.getStream 0).data

/-- Building `Struct(a / DeferredValue(Byte), b / DeferredValue(Byte),
CheckDeferredValues)`: two declared slots, neither ever patched. -/
def buildSchemaUnwritten : Except BuildErr (List Nat) :=
  match DeferredValue.buildStep ⟨byteSub, .num 0⟩ none 0 [some 0, none] []
      "(building) -> a" initState with
  | .error (e, _) => .error e
  | .ok (_, st1) =>
    match DeferredValue.buildStep ⟨byteSub, .num 0⟩ none 0 [some 0, none] []
        "(building) -> b" st1 with
    | .error (e, _) => .error e
    | .ok (_, st2) =>
      match CheckDeferredValues.buildStep st2 with
      | .error (e, _) => .error e
      | .ok (_, st3) => .ok (st3.getStream 0).data

/-! ### The nested Prefixed schema (claim C2)

`Struct('v' / Byte, 'a1' / Prefixed(Byte, Array(2, Struct('value' /
DeferredValue(Byte)))), 'a2' / Array(2, Struct('@offset' / Tell,
WriteDeferredValue(this offset, a1[i].value), 'value' / Byte)))`.

`Prefixed._build` creates a fresh `BytesIO` (stream id 1), builds the
array into it, and only afterwards writes the length field followed by the
buffered contents to the outer stream.  While building the array elements
the context chain is `[element struct (io 1), outer struct (io 0), root
(no io)]` and one `Prefixed._build` frame with a 1-byte length field is on
the call stack. -/

/-- The first phase, up to and including the flush of the `Prefixed`
buffer: returns the ledger indices of the two slots and the state. -/
def buildSchemaNestedStage1 (v : Nat) : BResult (Nat × Nat) :=
  match subconWrite byteSub (.num v) 0 initState with
  | .error e => .error e
  | .ok (_, st1) =>
    let st2 : BuildState := { st1 with streams := st1.streams ++ [⟨[], 0⟩] }
    match DeferredValue.buildStep ⟨byteSub, .num 0⟩ none 1
        [some 1, some 0, none] [1] "(building) -> a1 -> 0 -> value" st2 with
    | .error e => .error e
    | .ok (aIdx, st3) =>
      match DeferredValue.buildStep ⟨byteSub, .num 0⟩ none 1
          [some 1, some 0, none] [1] "(building) -> a1 -> 1 -> value" st3 with
      | .error e => .error e
      | .ok (bIdx, st4) =>
        let content := (st4.getStream 1).data
        match subconWrite byteSub (.num content.length) 0 st4 with
        | .error e => .error e
        | .ok (_, st5) => .ok ((aIdx, bIdx), st5.write 0 content)

/-- The full build of the nested schema: after the flush, each `a2`
element records `Tell`, patches the corresponding slot with it, and writes
its own byte. -/
def buildSchemaNested (v e0 e1 : Nat) : Except BuildErr (List Nat) :=
  match buildSchemaNestedStage1 v with
  | .error (e, _) => .error e
  | .ok ((aIdx, bIdx), st6) =>
    let t0 := st6.tell 0
    match WriteDeferredValue.buildStep (.meta aIdx) (.num t0) 0 st6 with
    | .error (e, _) => .error e
    | .ok (_, st7) =>
      match subconWrite byteSub (.num e0) 0 st7 with
      | .error (e, _) => .error e
      | .ok (_, st8) =>
        let t1 := st8.tell 0
        match WriteDeferredValue.buildStep (.meta bIdx) (.num t1) 0 st8 with
        | .error (e, _) => .error e
        | .ok (_, st9) =>
          match subconWrite byteSub (.num e1) 0 st9 with
          | .error (e, _) => .error e
          | .ok (_, st10) => .ok (st10.getStream 0).data

/-! ### Checksum layer (checksum.py)

checksum.py refers to `DeferredValueBase`, `DeferredParseMeta` and
`DeferredBuildMeta` of deferred.py, which are not present under src; where
those are needed they are modelled from the spec (sections 4.3, 4.5 and
4.6), and everything else is translated from checksum.py directly. -/

/-- The `ChecksumRaw` codec: `Hex(Bytes(digest_size))`, a fixed-size raw
byte string of the hash digest size. -/
def checksumRawSub (n : Nat) : Subcon where
  sizeof := .ok n
  build
    | .bytes b => if b.length = n then some b else none
    | .num _ => none
  parse := fun bs =>
    if n ≤ bs.length then some (.bytes (bs.take n), bs.drop n) else none

/-- The possible results of evaluating a checksum data-source expression
against the context: raw bytes, a container that may carry captured raw
bytes under `__checksum_raw_data__`, a plain `list`, a `ListContainer`
(which subclasses `list` but is rejected by the exact type check), or any
other object. -/
inductive DataVal where
  | bytes (b : List Nat)
  | container (raw : Option (List Nat))
  | list (vs : List DataVal)
  | listContainer (vs : List DataVal)
  | other

/-- `VerifyOrWriteChecksums.__get_raw_data`: bytes values are used
directly, containers must carry the captured raw bytes, anything else
raises the missing-capture `ChecksumCalcError`. -/
def getRawData : DataVal → Except BuildErr (List Nat)
  | .bytes b => .ok b
  | .container (some r) => .ok r
  | .container none => .error .checksumNoRawData
  | .list _ => .error .checksumNoRawData
  | .listContainer _ => .error .checksumNoRawData
  | .other => .error .checksumNoRawData

/-- The join in the list branch of `__iter_values`:
`b''.join(__get_raw_data(v) for v in data_container)`. -/
def concatRawData : List DataVal → Except BuildErr (List Nat)
  | [] => .ok []
  | v :: vs =>
    match getRawData v with
    | .error e => .error e
    | .ok b =>
      match concatRawData vs with
      | .error e => .error e
      | .ok rest => .ok (b ++ rest)

/-- The data-collection step of `VerifyOrWriteChecksums.__iter_values`:
in list mode the evaluated expression must be exactly a plain `list`
(`type(data_container) != list`, so `ListContainer` is rejected too), and
the referenced regions are concatenated; otherwise a single region is
used. -/
def checksumComputeData (isList : Bool) (dataContainer : DataVal) :
    Except BuildErr (List Nat) :=
  if isList then
    match dataContainer with
    | .list vs => concatRawData vs
    | _ => .error .checksumListExpected
  else getRawData dataContainer

/-- One iteration of `VerifyOrWriteChecksums._parse` for one checksum
slot: compute the hash over the collected data and compare it with the
stored digest `stored` (the `meta.value` read while parsing); a mismatch
raises `ChecksumVerifyError(message, expected := stored, actual :=
computed)`.  Returns the computed digest on success (the value is marked
verified). -/
def verifyChecksumMeta (H : List Nat → List Nat) (stored : List Nat)
    (isList : Bool) (dataContainer : DataVal) : Except BuildErr (List Nat) :=
  match checksumComputeData isList dataContainer with
  | .error e => .error e
  | .ok data =>
    let hv := H data
    if stored = hv then .ok hv else .error (.checksumMismatch stored hv)

/-- The bytes of `b"test"`. -/
def testBytes : List Nat := [116, 101, 115, 116]

/-- Building `Struct('hash' / ChecksumValue(H), 'data' /
ChecksumSourceData(4 source bytes), VerifyOrWriteChecksums)`.

Modelled from the spec where `DeferredValueBase` is missing from src: the
checksum slot's build path writes a digest-sized placeholder and registers
the slot (spec 4.3/4.6 encode), here embedded through
`DeferredValue.buildStep` with the `ChecksumRaw` codec and an all-zero
placeholder; `ChecksumSourceData` (a Capture Wrapper) writes the source
bytes and captures exactly them (spec 4.5); `VerifyOrWriteChecksums._build`
then hashes the captured data and patches the slot through
`WriteDeferredValue` as in checksum.py. -/
def buildChecksumStruct (H : List Nat → List Nat) (n : Nat)
    (src : List Nat) : Except BuildErr (List Nat) :=
  match DeferredValue.buildStep ⟨checksumRawSub n, .bytes (List.replicate n 0)⟩
      none 0 [some 0, none] [] "(building) -> hash" initState with
  | .error (e, _) => .error e
  | .ok (slotIdx, st1) =>
    let st2 := st1.write 0 src
    let captured : DataVal := .container (some src)
    match checksumComputeData false captured with
    | .error e => .error e
    | .ok data =>
      match WriteDeferredValue.buildStep (.meta slotIdx)
          (.bytes (H data)) 0 st2 with
      | .error (e, _) => .error e
      | .ok (_, st3) => .ok (st3.getStream 0).data

/-- Parsing the same structure.

Modelled from the spec where `DeferredValueBase`/`DeferredParseMeta` are
missing from src: the checksum slot's parse path reads the stored digest
through `ChecksumRaw` and records it as the parse meta's value (spec 4.3
decode path); the Capture Wrapper reads the 4 source bytes and captures
them; `VerifyOrWriteChecksums._parse` then verifies as in checksum.py. -/
def parseChecksumStruct (H : List Nat → List Nat) (n : Nat)
    (input : List Nat) : Except BuildErr (List Nat × List Nat) :=
  match (checksumRawSub n).parse input with
  | some (.bytes stored, rest) =>
    match parseBytesSeq 4 rest with
    | none => .error .streamReadError
    | some (srcBytes, _) =>
      match verifyChecksumMeta H stored false (.container (some srcBytes)) with
      | .error e => .error e
      | .ok _ => .ok (stored, srcBytes)
  | _ => .error .streamReadError

/-- Parsing `Struct(ChecksumValue(H, data[0:2], list mode), 'data' /
Array(3, ChecksumSourceData(Struct(Byte))), VerifyOrWriteChecksums)`: a
stored digest over the concatenation of captured regions 0 and 1 of three
1-byte captured regions.

Modelled from the spec for the same missing pieces as
`parseChecksumStruct`; the data expression `this.data[0:2]` evaluates to
the plain list of the first two captured containers. -/
def parseChecksumListStruct (H : List Nat → List Nat) (n : Nat)
    (input : List Nat) : Except BuildErr (List Nat × List Nat) :=
  match (checksumRawSub n).parse input with
  | some (.bytes stored, rest) =>
    match parseBytesSeq 3 rest with
    | none => .error .streamReadError
    | some (regions, _) =>
      match regions with
      | [r0, r1, r2] =>
        let dataContainer : DataVal :=
          .list [.container (some [r0]), .container (some [r1])]
        match verifyChecksumMeta H stored true dataContainer with
        | .error e => .error e
        | .ok _ => .ok (stored, [r0, r1, r2])
      | _ => .error .streamReadError
  | _ => .error .streamReadError

/-- A concrete executable stand-in hash function with a 20-byte digest,
used to instantiate theorems quantified over the hash function. -/
def toyHash (bs : List Nat) : List Nat :=
  (List.range 20).map (fun i => (bs.sum + i) % 256)

/-! ### Helper lemmas about the stream primitives -/

theorem writeAt_at_end (d b : List Nat) : writeAt d d.length b = d ++ b := by
  simp [writeAt, List.drop_eq_nil_of_le (Nat.le_add_right d.length b.length)]

theorem writeAt_zero (d b : List Nat) :
    writeAt d 0 b = b ++ d.drop b.length := by
  simp [writeAt]

theorem readAt_append (a b c : List Nat) :
    readAt (a ++ b ++ c) a.length b.length = some b := by
  have h1 : a.length + b.length ≤ (a ++ b ++ c).length := by
    simp [List.length_append]
  rw [readAt, if_pos h1, List.append_assoc, List.drop_left, List.take_left]

theorem writeAt_append (a b c b2 : List Nat) (h : b2.length = b.length) :
    writeAt (a ++ b ++ c) a.length b2 = a ++ b2 ++ c := by
  have h2 : a.length - (a ++ b ++ c).length = 0 := by
    simp [List.length_append]
  have h3 : (a ++ b ++ c).drop (a.length + b2.length) = c := by
    rw [h, ← List.length_append a b, List.drop_left]
  rw [writeAt, h2, List.replicate_zero, List.append_nil, h3,
    List.append_assoc a b c, List.take_left]

theorem readAt_writeAt (d : List Nat) (p : Nat) (b : List Nat)
    (h : p ≤ d.length) : readAt (writeAt d p b) p b.length = some b := by
  have h1 : (d.take p).length = p := by rw [List.length_take]; omega
  have h2 := readAt_append (d.take p) b (d.drop (p + b.length))
  rw [h1] at h2
  rw [writeAt, Nat.sub_eq_zero_of_le h, List.replicate_zero, List.append_nil]
  exact h2

theorem writeAt_length_of_le (d : List Nat) (p : Nat) (b : List Nat)
    (h : p + b.length ≤ d.length) : (writeAt d p b).length = d.length := by
  simp only [writeAt, List.length_append, List.length_take,
    List.length_replicate, List.length_drop]
  omega

theorem writeAt_getElem?_lt (d : List Nat) (p : Nat) (b : List Nat)
    (j : Nat) (hj : j < p) (hp : p ≤ d.length) :
    (writeAt d p b)[j]? = d[j]? := by
  have h1 : (d.take p).length = p := by rw [List.length_take]; omega
  rw [writeAt, Nat.sub_eq_zero_of_le hp, List.replicate_zero, List.append_nil,
    List.append_assoc]
  rw [List.getElem?_append_left (by omega)]
  exact List.getElem?_take_of_lt hj

theorem writeAt_getElem?_ge (d : List Nat) (p : Nat) (b : List Nat)
    (j : Nat) (hj : p + b.length ≤ j) (hp : p ≤ d.length) :
    (writeAt d p b)[j]? = d[j]? := by
  have h1 : (d.take p).length = p := by rw [List.length_take]; omega
  rw [writeAt, Nat.sub_eq_zero_of_le hp, List.replicate_zero, List.append_nil,
    List.append_assoc]
  rw [List.getElem?_append_right (by omega), h1]
  rw [List.getElem?_append_right (by omega)]
  rw [List.getElem?_drop]
  congr 1
  omega

theorem readAt_append2 (a b : List Nat) :
    readAt (a ++ b) a.length b.length = some b := by
  have h := readAt_append a b []
  simpa using h

theorem readAt_append_singleton (a : List Nat) (x : Nat) :
    readAt (a ++ [x]) a.length 1 = some [x] :=
  readAt_append2 a [x]

theorem readAt_append_mid (a c : List Nat) (x : Nat) :
    readAt (a ++ [x] ++ c) a.length 1 = some [x] := by
  have h := readAt_append a [x] c
  simpa using h

theorem writeAt_append_mid (a c : List Nat) (x w : Nat) :
    writeAt (a ++ [x] ++ c) a.length [w] = a ++ [w] ++ c :=
  writeAt_append a [x] c [w] rfl

/-! ### Helper lemmas about the build state primitives -/

theorem getStream_setStream (st : BuildState) (i : Nat) (s : StreamRec)
    (k : Nat) : (st.setStream i s).getStream k =
      if i = k ∧ i < st.streams.length then s else st.getStream k := by
  simp only [BuildState.setStream, BuildState.getStream, List.getElem?_set]
  by_cases h1 : i = k
  · subst h1
    by_cases h2 : i < st.streams.length
    · simp [h2]
    · simp [h2, List.getElem?_eq_none (by omega : st.streams.length ≤ i)]
  · simp [h1]

theorem streams_length_setStream (st : BuildState) (i : Nat) (s : StreamRec) :
    (st.setStream i s).streams.length = st.streams.length := by
  simp [BuildState.setStream]

theorem deferredList_setStream (st : BuildState) (i : Nat) (s : StreamRec) :
    (st.setStream i s).deferredList = st.deferredList := rfl

theorem getStream_data_setStream_pos (st : BuildState) (i : Nat) (p : Nat)
    (k : Nat) :
    ((st.setStream i { st.getStream i with pos := p }).getStream k).data =
      (st.getStream k).data := by
  rw [getStream_setStream]
  split
  · rename_i h
    rw [← h.1]
  · rfl

theorem getStream_seek_data (st : BuildState) (i p k : Nat) :
    ((st.seek i p).getStream k).data = (st.getStream k).data :=
  getStream_data_setStream_pos st i p k

theorem getStream_seek_self (st : BuildState) (i p : Nat)
    (h : i < st.streams.length) :
    (st.seek i p).getStream i = { st.getStream i with pos := p } := by
  rw [BuildState.seek, getStream_setStream, if_pos ⟨rfl, h⟩]

theorem getStream_write_self (st : BuildState) (i : Nat) (b : List Nat)
    (h : i < st.streams.length) :
    (st.write i b).getStream i =
      ⟨writeAt (st.getStream i).data (st.getStream i).pos b,
       (st.getStream i).pos + b.length⟩ := by
  rw [BuildState.write, getStream_setStream, if_pos ⟨rfl, h⟩]

theorem getStream_write_data_ne (st : BuildState) (i : Nat) (b : List Nat)
    (k : Nat) (h : i ≠ k) :
    ((st.write i b).getStream k).data = (st.getStream k).data := by
  rw [BuildState.write, getStream_setStream]
  simp [h]

theorem getStream_data_setStream_data_eq (st : BuildState) (i : Nat)
    (s : StreamRec) (h : s.data = (st.getStream i).data) (k : Nat) :
    ((st.setStream i s).getStream k).data = (st.getStream k).data := by
  rw [getStream_setStream]
  split
  · rename_i hc
    rw [h, ← hc.1]
  · rfl

theorem getStream_mk_streams (st : BuildState) (L : List DeferredMeta)
    (k : Nat) : (BuildState.mk st.streams L).getStream k = st.getStream k := rfl

theorem streams_length_seek (st : BuildState) (i p : Nat) :
    (st.seek i p).streams.length = st.streams.length :=
  streams_length_setStream _ _ _

theorem streams_length_write (st : BuildState) (i : Nat) (b : List Nat) :
    (st.write i b).streams.length = st.streams.length :=
  streams_length_setStream _ _ _

theorem deferredList_seek (st : BuildState) (i p : Nat) :
    (st.seek i p).deferredList = st.deferredList := rfl

/-! ### Step lemmas for the byte schemas -/

theorem buildByteList_ok (vs : List Nat) (h : ∀ v ∈ vs, v < 256)
    (d : List Nat) (p : Nat) (hp : p = d.length) (L : List DeferredMeta) :
    buildByteList vs 0 ⟨[⟨d, p⟩], L⟩ =
      .ok ((), ⟨[⟨d ++ vs, p + vs.length⟩], L⟩) := by
  subst hp
  induction vs generalizing d with
  | nil => simp [buildByteList]
  | cons v vs ih =>
    have hv : v < 256 := h v (List.mem_cons_self v vs)
    have hrest : ∀ x ∈ vs, x < 256 := fun x hx => h x (List.mem_cons_of_mem v hx)
    rw [buildByteList, subconWrite]
    simp only [byteSub, hv, if_pos, if_true, BuildState.write,
      BuildState.getStream, BuildState.setStream, List.getElem?_cons_zero,
      Option.getD_some, List.set]
    rw [writeAt_at_end]
    have h2 := ih hrest (d ++ [v])
    simp only [List.length_append, List.length_cons, List.length_singleton]
      at h2 ⊢
    rw [h2]
    simp only [List.append_assoc, List.singleton_append, List.length_nil,
      Except.ok.injEq, Prod.mk.injEq, BuildState.mk.injEq, StreamRec.mk.injEq,
      List.cons.injEq, and_true, true_and]
    omega

theorem slotStep_ok (d : List Nat) (L : List DeferredMeta) (path : String) :
    DeferredValue.buildStep ⟨byteSub, .num 0⟩ none 0 [some 0, none] [] path
      ⟨[⟨d, d.length⟩], L⟩
    = .ok (L.length, ⟨[⟨d ++ [0], d.length + 1⟩],
        L ++ [⟨byteSub, path, d.length, [0], none, false⟩]⟩) := by
  simp only [DeferredValue.buildStep, getOffsetInOuterStream, collectOffsets,
    BuildState.tell, BuildState.getStream, BuildState.write,
    BuildState.setStream, BuildState.seek, BuildState.read, byteSub,
    List.getElem?_cons_zero, Option.getD_some, List.set, List.sum_nil,
    Nat.add_zero, Nat.zero_lt_succ, if_true, Nat.add_sub_cancel_left]
  rw [writeAt_at_end]
  simp only [List.length_singleton, Nat.add_sub_cancel_left,
    readAt_append_singleton]

theorem patchStep_ok (a c : List Nat) (x w p : Nat) (hw : w < 256)
    (path : String) :
    WriteDeferredValue.buildStep (.meta 0) (.num w) 0
      ⟨[⟨a ++ [x] ++ c, p⟩], [⟨byteSub, path, a.length, [x], none, false⟩]⟩
    = .ok ((), ⟨[⟨a ++ [w] ++ c, p⟩],
        [⟨byteSub, path, a.length, [x], some (.num w), true⟩]⟩) := by
  simp only [WriteDeferredValue.buildStep, checkPlaceholder, buildValue,
    BuildState.tell, BuildState.getStream, BuildState.setStream,
    BuildState.seek, BuildState.write, BuildState.read,
    List.getElem?_cons_zero, Option.getD_some, List.set, byteSub, hw, if_true,
    List.length_singleton, readAt_append_mid, writeAt_append_mid,
    Bool.false_eq_true, if_false, reduceIte]

theorem parseBytesSeq_append (a r : List Nat) :
    parseBytesSeq a.length (a ++ r) = some (a, r) := by
  induction a with
  | nil => rfl
  | cons x xs ih => simp [parseBytesSeq, ih]

theorem parseBytesSeq_self (a : List Nat) :
    parseBytesSeq a.length a = some (a, []) := by
  have h := parseBytesSeq_append a []
  simpa using h

/-! ### Lemmas about the completeness check -/

theorem findUnwritten_eq_none (l : List DeferredMeta)
    (h : ∀ m ∈ l, m.newValueWritten = true) : findUnwritten l = none := by
  induction l with
  | nil => rfl
  | cons m rest ih =>
    rw [findUnwritten, if_pos (h m (List.mem_cons_self m rest))]
    exact ih fun x hx => h x (List.mem_cons_of_mem m hx)

theorem findUnwritten_first (l : List DeferredMeta) (i : Nat)
    (meta : DeferredMeta) (hget : l[i]? = some meta)
    (hw : meta.newValueWritten = false)
    (hupto : ∀ k mk, k < i → l[k]? = some mk → mk.newValueWritten = true) :
    findUnwritten l = some meta.path := by
  induction l generalizing i with
  | nil => simp at hget
  | cons m rest ih =>
    cases i with
    | zero =>
      rw [List.getElem?_cons_zero] at hget
      cases hget
      rw [findUnwritten, if_neg (by rw [hw]; exact Bool.false_ne_true)]
    | succ n =>
      have hm : m.newValueWritten = true :=
        hupto 0 m (Nat.succ_pos n) List.getElem?_cons_zero
      rw [findUnwritten, if_pos hm]
      exact ih n (by simpa using hget)
        fun k mk hk hgk => hupto (k + 1) mk (by omega) (by simpa using hgk)

/-! ### Claim theorems -/

/-- C6: constructing a `DeferredValue` over a codec that cannot report a
fixed byte size always fails with the non-constant-size `DeferredError`
wrapping the underlying size-computation failure and never produces a
slot, while constructing over a fixed-size codec succeeds. -/
theorem c6_placeholder_size_invariant (sc : Subcon) (ph : Val) :
    (∀ e, sc.sizeof = .error e →
      DeferredValue.init sc ph = .error (.sizeNotConstant e))
    ∧ (∀ n, sc.sizeof = .ok n →
      DeferredValue.init sc ph = .ok ⟨sc, ph⟩) := by
  constructor
  · intro e he
    rw [DeferredValue.init, he]
  · intro n hn
    rw [DeferredValue.init, hn]

/-- C6 witness: `GreedyBytes` (variable size) is rejected with the wrapped
sizeof failure, and `Byte` (fixed size) is accepted. -/
theorem c6_witness :
    DeferredValue.init greedyBytesSub (.num 0)
      = .error (.sizeNotConstant "GreedyBytes has no fixed size")
    ∧ DeferredValue.init byteSub (.num 0) = .ok ⟨byteSub, .num 0⟩ :=
  ⟨(c6_placeholder_size_invariant greedyBytesSub (.num 0)).1 _ rfl,
   (c6_placeholder_size_invariant byteSub (.num 0)).2 1 rfl⟩

/-- C5 counterexample: with two slots declared and neither ever patched,
the completeness check raises an error naming only the first unresolved
path, not every still-unresolved path (the second slot's distinct path is
absent from the error). -/
theorem c5_counterexample :
    buildSchemaUnwritten = .error (.deferredNotWritten "(building) -> a")
    ∧ "(building) -> a" ≠ "(building) -> b" :=
  ⟨rfl, by decide⟩

/-- C5 (amended): if every registered slot was resolved the check succeeds
without effect; if some slot is unresolved, the check fails with the
incomplete-ledger `DeferredError` naming the path of the FIRST unresolved
slot in allocation order (not every unresolved path). -/
theorem c5_completeness_check (st : BuildState) :
    ((∀ m ∈ st.deferredList, m.newValueWritten = true) →
      CheckDeferredValues.buildStep st = .ok ((), st))
    ∧ (∀ (i : Nat) (meta : DeferredMeta), st.deferredList[i]? = some meta →
        meta.newValueWritten = false →
        (∀ (k : Nat) (mk : DeferredMeta), k < i → st.deferredList[k]? = some mk →
          mk.newValueWritten = true) →
        CheckDeferredValues.buildStep st
          = .error (.deferredNotWritten meta.path, st)) := by
  constructor
  · intro h
    rw [CheckDeferredValues.buildStep, findUnwritten_eq_none _ h]
  · intro i meta hget hw hupto
    rw [CheckDeferredValues.buildStep,
      findUnwritten_first _ i meta hget hw hupto]

/-- A resolved slot, used in closed witness states. -/
def metaResolvedW : DeferredMeta :=
  ⟨byteSub, "(building) -> a", 0, [0], some (.num 1), true⟩

/-- An unresolved slot, used in closed witness states. -/
def metaUnresolvedW : DeferredMeta :=
  ⟨byteSub, "(building) -> b", 1, [0], none, false⟩

/-- A state whose ledger is fully resolved. -/
def stAllResolvedW : BuildState := ⟨[⟨[1, 0], 2⟩], [metaResolvedW]⟩

/-- A state with a resolved first slot and an unresolved second slot. -/
def stOneUnresolvedW : BuildState :=
  ⟨[⟨[0, 0], 2⟩], [metaResolvedW, metaUnresolvedW]⟩

/-- C5 witness: the completeness check at a fully resolved ledger and at a
ledger whose second slot is unresolved. -/
theorem c5_witness :
    CheckDeferredValues.buildStep stAllResolvedW = .ok ((), stAllResolvedW)
    ∧ CheckDeferredValues.buildStep stOneUnresolvedW
        = .error (.deferredNotWritten "(building) -> b", stOneUnresolvedW) := by
  constructor
  · exact (c5_completeness_check stAllResolvedW).1 (by decide)
  · exact (c5_completeness_check stOneUnresolvedW).2 1 metaUnresolvedW rfl rfl
      (by
        intro k mk hk hget
        cases k with
        | zero =>
          cases hget
          rfl
        | succ n => omega)

/-- C4 counterexample: two patch requests at the same slot in one build,
with a first value (65) whose bytes differ from the placeholder (0): the
second request fails with the placeholder-consistency error, not the
already-resolved assertion. -/
theorem c4_counterexample :
    buildSchemaTwice 0 65 66 = .error (.placeholderMismatch [65] [0])
    ∧ BuildErr.placeholderMismatch [65] [0] ≠ .assertAlreadyWritten :=
  ⟨rfl, by decide⟩

/-- C4 (amended): the second patch request at the same slot always fails,
but the error depends on the first patched value: the
placeholder-consistency check runs before the resolved-flag assertion, so
when the bytes written by the first patch differ from the placeholder
bytes the second request fails with the placeholder-consistency error, and
only when they coincide does it fail with the already-resolved
assertion.  Either way the slot is resolved at most once. -/
theorem c4_write_twice (ph w1 w2 : Nat) (hph : ph < 256) (h1 : w1 < 256) :
    buildSchemaTwice ph w1 w2 =
      .error (if w1 = ph then .assertAlreadyWritten
              else .placeholderMismatch [w1] [ph]) := by
  by_cases hw : w1 = ph
  · subst hw
    simp [buildSchemaTwice, DeferredValue.buildStep, WriteDeferredValue.buildStep,
      checkPlaceholder, buildValue, subconWrite, byteSub,
      getOffsetInOuterStream, collectOffsets, initState,
      BuildState.write, BuildState.seek, BuildState.setStream, BuildState.read,
      BuildState.getStream, BuildState.tell, writeAt, readAt, hph]
  · simp [buildSchemaTwice, DeferredValue.buildStep, WriteDeferredValue.buildStep,
      checkPlaceholder, buildValue, subconWrite, byteSub,
      getOffsetInOuterStream, collectOffsets, initState,
      BuildState.write, BuildState.seek, BuildState.setStream, BuildState.read,
      BuildState.getStream, BuildState.tell, writeAt, readAt, hph, h1, hw]

/-- C4 witness: a first patch whose value coincides with the placeholder
makes the second patch hit the already-resolved assertion. -/
theorem c4_witness : buildSchemaTwice 5 5 66 = .error .assertAlreadyWritten := by
  have h := c4_write_twice 5 5 66 (by decide) (by decide)
  simpa using h

/-- C3: for every patch attempt on a slot, if the bytes currently stored
at the slot's target offset differ byte-for-byte from the placeholder
bytes recorded at allocation, the patch fails with the
placeholder-consistency `DeferredError` regardless of the new value, no
bytes of any stream are overwritten, and the ledger (hence the slot's
unresolved state) is unchanged. -/
theorem c3_placeholder_consistency (st : BuildState) (idx : Nat)
    (meta : DeferredMeta) (streamId : Nat) (readData : List Nat)
    (newValue : Val) (hs : streamId < st.streams.length)
    (hmeta : st.deferredList[idx]? = some meta)
    (hread : readAt (st.getStream streamId).data meta.targetOffset
        meta.placeholderData.length = some readData)
    (hne : readData ≠ meta.placeholderData) :
    ∃ st2, WriteDeferredValue.buildStep (.meta idx) newValue streamId st =
        .error (.placeholderMismatch readData meta.placeholderData, st2)
      ∧ (∀ k, (st2.getStream k).data = (st.getStream k).data)
      ∧ st2.deferredList = st.deferredList := by
  have hseek := getStream_seek_self st streamId meta.targetOffset hs
  rw [WriteDeferredValue.buildStep, checkPlaceholder, hmeta]
  simp only [BuildState.read, hseek, hread, if_neg hne]
  refine ⟨_, rfl, ?_, rfl⟩
  intro k
  rw [getStream_data_setStream_data_eq]
  · exact getStream_seek_data st streamId meta.targetOffset k
  · rw [hseek]

/-- A slot whose placeholder bytes were overwritten by another writer. -/
def metaMismatchW : DeferredMeta :=
  ⟨byteSub, "(building) -> slot", 0, [0], none, false⟩

/-- A state whose stream holds byte 7 where slot `metaMismatchW` recorded
placeholder byte 0. -/
def stMismatchW : BuildState := ⟨[⟨[7], 1⟩], [metaMismatchW]⟩

/-- C3 witness: patching the mutated slot of `stMismatchW` fails with the
placeholder-consistency error and leaves bytes and ledger unchanged. -/
theorem c3_witness :
    ∃ st2, WriteDeferredValue.buildStep (.meta 0) (.num 66) 0 stMismatchW =
        .error (.placeholderMismatch [7] [0], st2)
      ∧ (∀ k, (st2.getStream k).data = (stMismatchW.getStream k).data)
      ∧ st2.deferredList = stMismatchW.deferredList :=
  c3_placeholder_consistency stMismatchW 0 metaMismatchW 0 [7] (.num 66)
    (by decide) rfl rfl (by decide)

/-- C10: building a `DeferredValue` accepts only the absent value: for
every non-`None` build input it raises a `DeferredError` before touching
the stream or the ledger, while for input `None` it writes exactly the
placeholder bytes at the current position, records those bytes
byte-for-byte as the slot's `placeholder_data`, and appends the new slot
at the end of the root context's deferred list. -/
theorem c10_build_accepts_only_none (dv : DeferredValue) (streamId : Nat)
    (ctxChain : List (Option Nat)) (pfxStack : List Nat) (path : String)
    (st : BuildState) (hs : streamId < st.streams.length) :
    (∀ v, DeferredValue.buildStep dv (some v) streamId ctxChain pfxStack path st
        = .error (.buildExpectedNone, st))
    ∧ (∀ bs, dv.subcon.build dv.placeholder = some bs →
        (st.getStream streamId).pos ≤ (st.getStream streamId).data.length →
        ∃ st4, DeferredValue.buildStep dv none streamId ctxChain pfxStack path st
            = .ok (st.deferredList.length, st4)
          ∧ st4.deferredList = st.deferredList ++
              [⟨dv.subcon, path,
                getOffsetInOuterStream st streamId ctxChain pfxStack, bs,
                none, false⟩]
          ∧ (st4.getStream streamId).data =
              writeAt (st.getStream streamId).data (st.getStream streamId).pos bs
          ∧ (st4.getStream streamId).pos =
              (st.getStream streamId).pos + bs.length) := by
  constructor
  · intro v
    rfl
  · intro bs hbuild hpos
    have hw := getStream_write_self st streamId bs hs
    have hs1 : streamId < (st.write streamId bs).streams.length := by
      rw [streams_length_write]; exact hs
    have hseek := getStream_seek_self (st.write streamId bs) streamId
      ((st.getStream streamId).pos) hs1
    rw [DeferredValue.buildStep]
    simp only [hbuild, BuildState.tell, hw, BuildState.read, hseek,
      Nat.add_sub_cancel_left]
    rw [readAt_writeAt _ _ _ hpos]
    have hs2 : streamId < ((st.write streamId bs).seek streamId
        (st.getStream streamId).pos).streams.length := by
      rw [streams_length_seek, streams_length_write]; exact hs
    refine ⟨_, rfl, rfl, ?_, ?_⟩
    · rw [getStream_mk_streams, getStream_setStream, if_pos ⟨rfl, hs2⟩]
    · rw [getStream_mk_streams, getStream_setStream, if_pos ⟨rfl, hs2⟩]

/-- C10 witness: building a fresh byte slot with a non-`None` input fails,
and building it with `None` writes the placeholder byte and registers the
slot. -/
theorem c10_witness :
    (DeferredValue.buildStep ⟨byteSub, .num 0⟩ (some (.num 5)) 0 [some 0, none]
        [] "(building) -> slot" initState = .error (.buildExpectedNone, initState))
    ∧ (∃ st4, DeferredValue.buildStep ⟨byteSub, .num 0⟩ none 0 [some 0, none]
          [] "(building) -> slot" initState = .ok (0, st4)
        ∧ st4.deferredList =
            [⟨byteSub, "(building) -> slot", 0, [0], none, false⟩]
        ∧ (st4.getStream 0).data = [0]
        ∧ (st4.getStream 0).pos = 0 + 1) :=
  ⟨(c10_build_accepts_only_none ⟨byteSub, .num 0⟩ 0 [some 0, none] []
      "(building) -> slot" initState (by decide)).1 (.num 5),
   (c10_build_accepts_only_none ⟨byteSub, .num 0⟩ 0 [some 0, none] []
      "(building) -> slot" initState (by decide)).2 [0] rfl (by decide)⟩

/-- C7: every successful patch resolution restores the output stream's
position to what it was before the patch and modifies only the bytes in
`[target_offset, target_offset + placeholder length)`; every byte outside
that range is unchanged (the codec of a registered slot produces exactly
placeholder-length bytes, which is the `hlen` hypothesis). -/
theorem c7_patch_frame_effect (st st2 : BuildState) (idx : Nat)
    (meta : DeferredMeta) (newValue : Val) (streamId : Nat)
    (hs : streamId < st.streams.length)
    (hmeta : st.deferredList[idx]? = some meta)
    (hlen : ∀ bs, meta.subcon.build newValue = some bs →
      bs.length = meta.placeholderData.length)
    (hok : WriteDeferredValue.buildStep (.meta idx) newValue streamId st
      = .ok ((), st2)) :
    (st2.getStream streamId).pos = (st.getStream streamId).pos
    ∧ (st2.getStream streamId).data.length = (st.getStream streamId).data.length
    ∧ (∀ j, j < meta.targetOffset ∨
        meta.targetOffset + meta.placeholderData.length ≤ j →
        (st2.getStream streamId).data[j]? = (st.getStream streamId).data[j]?) := by
  have hseek := getStream_seek_self st streamId meta.targetOffset hs
  rw [WriteDeferredValue.buildStep, checkPlaceholder, hmeta] at hok
  simp only [BuildState.read, hseek] at hok
  cases hr : readAt (st.getStream streamId).data meta.targetOffset
      meta.placeholderData.length with
  | none =>
    simp only [hr, reduceCtorEq] at hok
  | some readData =>
    simp only [hr] at hok
    by_cases hrd : readData = meta.placeholderData
    case neg =>
      simp only [if_neg hrd, reduceCtorEq] at hok
    case pos =>
      simp only [if_pos hrd] at hok
      simp only [buildValue, deferredList_seek, deferredList_setStream,
        hmeta] at hok
      by_cases hnw : meta.newValueWritten
      case pos =>
        simp only [hnw, if_true, reduceCtorEq] at hok
      case neg =>
        simp only [hnw, Bool.false_eq_true, if_false] at hok
        cases hb : meta.subcon.build newValue with
        | none =>
          simp only [hb, reduceCtorEq] at hok
        | some bs =>
          simp only [hb, Except.ok.injEq, Prod.mk.injEq, true_and] at hok
          subst hok
          have hbound : meta.targetOffset + meta.placeholderData.length ≤
              (st.getStream streamId).data.length := by
            by_contra hcon
            rw [readAt, if_neg hcon] at hr
            cases hr
          have hbs : bs.length = meta.placeholderData.length := hlen bs hb
          simp only [getStream_mk_streams, getStream_seek_self,
            getStream_write_self, getStream_setStream, streams_length_seek,
            streams_length_setStream, streams_length_write, BuildState.tell,
            BuildState.seek, hs, if_pos, and_true, true_and, if_true]
          refine ⟨?_, ?_⟩
          · exact writeAt_length_of_le _ _ _ (by omega)
          · intro j hj
            rcases hj with hj | hj
            · exact writeAt_getElem?_lt _ _ _ _ hj (by omega)
            · exact writeAt_getElem?_ge _ _ _ _ (by omega) (by omega)

/-- A pristine slot over a two-byte stream, used by the C7 witness. -/
def metaPatchW : DeferredMeta :=
  ⟨byteSub, "(building) -> slot", 0, [0], none, false⟩

/-- A state whose stream holds the placeholder byte 0 followed by byte 9,
with the write position past both. -/
def stPatchW : BuildState := ⟨[⟨[0, 9], 2⟩], [metaPatchW]⟩

/-- The state after successfully patching the slot of `stPatchW` with
value 7. -/
def stPatchedW : BuildState :=
  ⟨[⟨[7, 9], 2⟩],
   [⟨byteSub, "(building) -> slot", 0, [0], some (.num 7), true⟩]⟩

/-- C7 witness: the successful patch of `stPatchW` restores the position
and only touches the placeholder byte. -/
theorem c7_witness :
    (stPatchedW.getStream 0).pos = (stPatchW.getStream 0).pos
    ∧ (stPatchedW.getStream 0).data.length = (stPatchW.getStream 0).data.length
    ∧ (∀ j, j < metaPatchW.targetOffset ∨
        metaPatchW.targetOffset + metaPatchW.placeholderData.length ≤ j →
        (stPatchedW.getStream 0).data[j]? = (stPatchW.getStream 0).data[j]?) :=
  c7_patch_frame_effect stPatchW stPatchedW 0 metaPatchW (.num 7) 0
    (by decide) rfl
    (fun bs h => by
      have h2 : some [7] = some bs := h
      cases h2
      rfl)
    rfl

/-- C1: round-trip for the schema family with one deferred slot patched
from a later field: for arbitrary byte fields before and after the slot
and a patch taking the value of the later field `j`, parsing the bytes
produced by building yields every built field back unchanged, and the slot
parses to exactly the patched value. -/
theorem c1_roundtrip (lead trail : List Nat) (j : Nat)
    (hlead : ∀ v ∈ lead, v < 256) (htrail : ∀ v ∈ trail, v < 256)
    (hj : j < trail.length) :
    buildSchemaGen lead trail j = .ok (lead ++ [trail.getD j 0] ++ trail)
    ∧ parseSchemaGen lead.length trail.length
        (lead ++ [trail.getD j 0] ++ trail)
      = some (lead, trail.getD j 0, trail) := by
  have hv : trail.getD j 0 < 256 := by
    rw [List.getD_eq_getElem _ _ hj]
    exact htrail _ (List.getElem_mem hj)
  constructor
  · rw [buildSchemaGen, show initState = ⟨[⟨[], 0⟩], []⟩ from rfl,
      buildByteList_ok lead hlead [] 0 rfl []]
    simp only [List.nil_append, Nat.zero_add]
    rw [slotStep_ok lead [] "(building) -> slot"]
    simp only [List.length_nil, List.nil_append]
    rw [buildByteList_ok trail htrail (lead ++ [0]) (lead.length + 1)
      (by simp) [⟨byteSub, "(building) -> slot", lead.length, [0], none, false⟩]]
    simp only []
    rw [patchStep_ok lead trail 0 (trail.getD j 0)
      (lead.length + 1 + trail.length) hv]
    simp [BuildState.getStream]
  · rw [parseSchemaGen, List.append_assoc, parseBytesSeq_append]
    simp only [List.singleton_append]
    simp only [byteSub, parseBytesSeq_self]

/-- C1 witness: the round trip at a one-byte lead, a one-byte trail and
patch source index 0. -/
theorem c1_witness :
    buildSchemaGen [255] [254] 0 = .ok [255, 254, 254]
    ∧ parseSchemaGen 1 1 [255, 254, 254] = some ([255], 254, [254]) := by
  have h := c1_roundtrip [255] [254] 0 (by decide) (by decide) (by decide)
  simpa using h

/-- C2: nested offset correctness.  For the schema `outer(byte,
length_prefixed([slot_A, slot_B]), targets)` with a 1-byte length header,
each slot allocated inside the privately buffered sub-structure records as
absolute target offset its local position plus the enclosing stream's
write position plus the 1-byte width of the still-unwritten length
header: slot A records offset 2 and slot B offset 3, which are exactly the
positions the placeholder bytes occupy in the final top-level stream
after the buffer is flushed, and the patches land there (final stream
`[v, 2, 4, 5, e0, e1]` as the real library produces). -/
theorem c2_nested_offset_correctness (v e0 e1 : Nat) (hv : v < 256)
    (h0 : e0 < 256) (h1 : e1 < 256) :
    (∃ st, buildSchemaNestedStage1 v = .ok ((0, 1), st)
      ∧ st.deferredList.map DeferredMeta.targetOffset = [2, 3]
      ∧ st.deferredList.map DeferredMeta.placeholderData = [[0], [0]]
      ∧ (st.getStream 0).data = [v, 2, 0, 0]
      ∧ (st.getStream 0).data[2]? = some 0
      ∧ (st.getStream 0).data[3]? = some 0)
    ∧ buildSchemaNested v e0 e1 = .ok [v, 2, 4, 5, e0, e1] := by
  constructor
  · refine ⟨⟨[⟨[v, 2, 0, 0], 4⟩, ⟨[0, 0], 2⟩],
      [⟨byteSub, "(building) -> a1 -> 0 -> value", 2, [0], none, false⟩,
       ⟨byteSub, "(building) -> a1 -> 1 -> value", 3, [0], none, false⟩]⟩,
      ?_, rfl, rfl, rfl, rfl, rfl⟩
    simp [buildSchemaNestedStage1, DeferredValue.buildStep, subconWrite,
      getOffsetInOuterStream, collectOffsets, initState,
      BuildState.write, BuildState.seek, BuildState.setStream, BuildState.read,
      BuildState.getStream, BuildState.tell, writeAt, readAt, byteSub, hv]
  · simp [buildSchemaNested, buildSchemaNestedStage1, DeferredValue.buildStep,
      WriteDeferredValue.buildStep, checkPlaceholder, buildValue, subconWrite,
      getOffsetInOuterStream, collectOffsets, initState,
      BuildState.write, BuildState.seek, BuildState.setStream, BuildState.read,
      BuildState.getStream, BuildState.tell, writeAt, readAt, byteSub, hv,
      h0, h1]

/-- C2 witness: the nested schema at the concrete bytes of the repository
test (`v = 0xff`, elements `0xe0`, `0xe1`), reproducing the stream
`ff 02 04 05 e0 e1`. -/
theorem c2_witness :
    buildSchemaNested 255 224 225 = .ok [255, 2, 4, 5, 224, 225] :=
  (c2_nested_offset_correctness 255 224 225 (by decide) (by decide)
    (by decide)).2

/-- C8: checksum end-to-end for `[digest_slot, capture(source)]` over
source bytes `b"test"`: building produces `H(b"test") || b"test"`, parsing
those same bytes succeeds, and parsing with any single digest byte
replaced by a different value fails with the checksum-verify error
carrying expected = the stored (flipped) digest and actual =
`H(b"test")`. -/
theorem c8_checksum_end_to_end (H : List Nat → List Nat)
    (hH : (H testBytes).length = 20) :
    buildChecksumStruct H 20 testBytes = .ok (H testBytes ++ testBytes)
    ∧ parseChecksumStruct H 20 (H testBytes ++ testBytes)
        = .ok (H testBytes, testBytes)
    ∧ (∀ i b, i < 20 → b ≠ (H testBytes).getD i 0 →
        parseChecksumStruct H 20 ((H testBytes).set i b ++ testBytes)
          = .error (.checksumMismatch ((H testBytes).set i b)
              (H testBytes))) := by
  have hH2 : (H [116, 101, 115, 116]).length = 20 := hH
  refine ⟨?_, ?_, ?_⟩
  · simp [buildChecksumStruct, DeferredValue.buildStep,
      WriteDeferredValue.buildStep, checkPlaceholder, buildValue,
      checksumComputeData, getRawData, checksumRawSub,
      getOffsetInOuterStream, collectOffsets, initState,
      BuildState.write, BuildState.seek, BuildState.setStream, BuildState.read,
      BuildState.getStream, BuildState.tell, writeAt, readAt, hH2, testBytes]
  · have htake : (H testBytes ++ testBytes).take 20 = H testBytes := by
      rw [← hH]
      exact List.take_left _ _
    have hdrop : (H testBytes ++ testBytes).drop 20 = testBytes := by
      rw [← hH]
      exact List.drop_left _ _
    simp only [testBytes] at htake hdrop
    simp [parseChecksumStruct, checksumRawSub, verifyChecksumMeta,
      checksumComputeData, getRawData, parseBytesSeq, htake, hdrop, hH2,
      testBytes]
  · intro i b hi hb
    have hlen : ((H testBytes).set i b).length = 20 := by
      rw [List.length_set, hH]
    have htake : ((H testBytes).set i b ++ testBytes).take 20
        = (H testBytes).set i b := by
      rw [← hlen]
      exact List.take_left _ _
    have hdrop : ((H testBytes).set i b ++ testBytes).drop 20 = testBytes := by
      rw [← hlen]
      exact List.drop_left _ _
    have hne : (H testBytes).set i b ≠ H testBytes := by
      intro heq
      have h1 : ((H testBytes).set i b)[i]? = some b :=
        List.getElem?_set_self (by omega)
      rw [heq] at h1
      have h2 : (H testBytes)[i]? = some ((H testBytes).getD i 0) := by
        rw [List.getD_eq_getElem _ _ (by omega)]
        exact List.getElem?_eq_getElem (by omega)
      rw [h2] at h1
      exact hb (Option.some.inj h1).symm
    simp only [testBytes] at htake hdrop hne hlen
    simp [parseChecksumStruct, checksumRawSub, verifyChecksumMeta,
      checksumComputeData, getRawData, parseBytesSeq, htake, hdrop, hlen,
      hne, hH2, testBytes]

/-- C8 witness: the end-to-end checksum pipeline instantiated at the
executable 20-byte hash `toyHash`, with digest byte 0 flipped to 0. -/
theorem c8_witness :
    buildChecksumStruct toyHash 20 testBytes
      = .ok (toyHash testBytes ++ testBytes)
    ∧ parseChecksumStruct toyHash 20 (toyHash testBytes ++ testBytes)
        = .ok (toyHash testBytes, testBytes)
    ∧ parseChecksumStruct toyHash 20 ((toyHash testBytes).set 0 0 ++ testBytes)
        = .error (.checksumMismatch ((toyHash testBytes).set 0 0)
            (toyHash testBytes)) := by
  have h := c8_checksum_end_to_end toyHash (by decide)
  exact ⟨h.1, h.2.1, h.2.2 0 0 (by decide) (by decide)⟩

/-- C9: list-source checksum shape.  In list mode, a data-source
expression result that is anything other than a plain list fails with the
shape `ChecksumCalcError` (a `ListContainer`, although a `list` subclass,
included); when it is a plain list of the captured regions 0 and 1 of
three 1-byte regions, decoding succeeds exactly when the stored digest
equals the hash of the concatenation of those two regions, independent of
region 2's value, and fails with the checksum-verify error otherwise. -/
theorem c9_list_source_checksum (H : List Nat → List Nat) :
    (∀ (stored : List Nat) (dv : DataVal), (∀ vs, dv ≠ DataVal.list vs) →
      verifyChecksumMeta H stored true dv = .error .checksumListExpected)
    ∧ (∀ (d : List Nat) (r0 r1 r2 : Nat), d.length = 20 →
        parseChecksumListStruct H 20 (d ++ [r0, r1, r2]) =
          (if d = H [r0, r1] then .ok (d, [r0, r1, r2])
           else .error (.checksumMismatch d (H [r0, r1])))) := by
  constructor
  · intro stored dv h
    cases dv with
    | list vs => exact absurd rfl (h vs)
    | bytes b => rfl
    | container r => rfl
    | listContainer vs => rfl
    | other => rfl
  · intro d r0 r1 r2 hd
    have htake : (d ++ [r0, r1, r2]).take 20 = d := by
      rw [← hd]
      exact List.take_left _ _
    have hdrop : (d ++ [r0, r1, r2]).drop 20 = [r0, r1, r2] := by
      rw [← hd]
      exact List.drop_left _ _
    by_cases heq : d = H [r0, r1]
    · subst heq
      simp [parseChecksumListStruct, checksumRawSub, verifyChecksumMeta,
        checksumComputeData, concatRawData, getRawData, parseBytesSeq,
        htake, hdrop, hd]
    · simp [parseChecksumListStruct, checksumRawSub, verifyChecksumMeta,
        checksumComputeData, concatRawData, getRawData, parseBytesSeq,
        htake, hdrop, hd, heq]

/-- C9 witness: a non-list source (a lone captured container) fails with
the shape error, and the list pipeline over regions `1, 2, 3` with the
digest of regions 0 and 1 succeeds. -/
theorem c9_witness :
    verifyChecksumMeta toyHash [] true (.container none)
      = .error .checksumListExpected
    ∧ parseChecksumListStruct toyHash 20 (toyHash [1, 2] ++ [1, 2, 3])
        = .ok (toyHash [1, 2], [1, 2, 3]) := by
  have h := c9_list_source_checksum toyHash
  refine ⟨h.1 [] (.container none) (fun vs hv => DataVal.noConfusion hv), ?_⟩
  have h2 := h.2 (toyHash [1, 2]) 1 2 3 (by decide)
  simpa using h2

end ConstructUtils
